import Mathlib

/-!
Shallow embedding of the SymbiYosys front-end (`sbysrc/sby.py`): the
line-oriented `.sby` configuration preprocessor (`read_sbyconfig`) and
the per-task job dispatcher (`run_job` together with the top-level
driver code).

Modelling conventions:

* Python strings are Lean `String`s (a wrapper around `List Char`);
  `str.startswith`, slicing, `lstrip`, `rstrip` and `split` are
  modelled by the `py*` helpers below, operating on the underlying
  character lists.
* The Python `set`s `task_tags_active` / `task_tags_all` are modelled
  as insertion-ordered duplicate-free lists (`setAdd`); the
  `for t in task_tags_all:` loop with `break` is modelled as a
  first-match scan in insertion order (CPython set iteration order is
  unspecified; the spec calls overlapping tag matches an input-design
  error, and all general theorems below carry a hypothesis making the
  matching tag unique).
* The `exec` of an embedded pycode region runs arbitrary Python and is
  outside the model; the model records the exact text that
  `read_sbyconfig` hands to `exec` in the ghost field
  `executedPycode`.  (In the source, reaching `--pycode-end--` with no
  open region raises a `TypeError`; the model leaves the state
  unchanged there, and no theorem below depends on that case.)
* Filesystem effects of `run_job` are modelled by returning the list
  of operations (moves / removals) that the code would perform, with
  the current directory contents supplied as a predicate
  `ex : String → Bool` standing for `os.path.exists`.
-/

namespace Sby

/-- Python `p == s[:len(p)]`, i.e. `s.startswith(p)` (sby.py lines 123, 134, 137). -/
def pyStartswith (s p : String) : Bool := decide (p.data <+: s.data)

/-- Python slicing `s[n:]` (sby.py lines 135, 138). -/
def pyDrop (s : String) (n : Nat) : String := ⟨s.data.drop n⟩

/-- Python slicing `s[:n]`; with `n = len(s) - 4` this is `s[:-4]` (sby.py line 204). -/
def pyTake (s : String) (n : Nat) : String := ⟨s.data.take n⟩

/-- Python `len(s)`. -/
def pyLen (s : String) : Nat := s.data.length

/-- Python `s.lstrip()`: drop all leading whitespace (sby.py lines 135, 138). -/
def pyLstrip (s : String) : String := ⟨s.data.dropWhile Char.isWhitespace⟩

/-- Python `s.rstrip(c)` for a single character `c`: drop all trailing copies of `c`. -/
def rstripChar (s : String) (c : Char) : String :=
  ⟨(s.data.reverse.dropWhile (fun d => d == c)).reverse⟩

/-- The line normalisation `line.rstrip("\n").rstrip("\r")` (sby.py lines 120-121). -/
def stripEOL (s : String) : String := rstripChar (rstripChar s '\n') '\r'

/-- Helper for `pySplit`: accumulates the current word (reversed) while scanning. -/
def wordsAux : List Char → List Char → List (List Char)
  | [], cur => if cur = [] then [] else [cur.reverse]
  | c :: cs, cur =>
    if c.isWhitespace then
      if cur = [] then wordsAux cs [] else cur.reverse :: wordsAux cs []
    else
      wordsAux cs (c :: cur)

/-- Python `s.split()` with no argument: split on runs of whitespace,
dropping empty words (sby.py line 156). -/
def pySplit (s : String) : List String := (wordsAux s.data []).map (fun w => ⟨w⟩)

/-- Python `set.add` on an insertion-ordered duplicate-free list model of a set. -/
def setAdd (l : List String) (x : String) : List String := if x ∈ l then l else l ++ [x]

/-- The mutable scan state of `read_sbyconfig` (sby.py lines 109-117), with
field names taken from the source (including the `task_skiping_blocks`
spelling).  `executedPycode` is a ghost field recording the region texts
handed to `exec`. -/
structure SbyState where
  cfgdata : List String
  tasklist : List String
  pycode : Option String
  executedPycode : List String
  tasks_section : Bool
  task_tags_active : List String
  task_tags_all : List String
  task_skip_block : Bool
  task_skiping_blocks : Bool

/-- The initial state of one `read_sbyconfig` call (sby.py lines 109-117). -/
def initState : SbyState :=
  { cfgdata := [], tasklist := [], pycode := none, executedPycode := [],
    tasks_section := false, task_tags_active := [], task_tags_all := [],
    task_skip_block := false, task_skiping_blocks := false }

/-- One iteration body of the `for t in task_tags_all:` loop (sby.py lines
133-141): try tag `t` against `line`, returning the rewritten line and the
polarity match on success. -/
def tagApply (tags_active : List String) (t line : String) : Option (String × Bool) :=
  if (t ++ ":").data <+: line.data then
    some (pyLstrip (pyDrop line (pyLen t + 1)), decide (t ∈ tags_active))
  else if ("~" ++ t ++ ":").data <+: line.data then
    some (pyLstrip (pyDrop line (pyLen t + 2)), decide (t ∉ tags_active))
  else
    none

/-- Whether tag `t` matches `line` in either polarity (the complement of the
`continue` branch, sby.py line 141). -/
def tagHit (t line : String) : Bool :=
  decide ((t ++ ":").data <+: line.data) || decide (("~" ++ t ++ ":").data <+: line.data)

/-- The whole `for t in task_tags_all:` loop with its `break` (sby.py lines
133-150): first matching tag wins. -/
def stepTags (tags_all tags_active : List String) (line : String) : Option (String × Bool) :=
  match tags_all with
  | [] => none
  | t :: ts =>
    match tagApply tags_active t line with
    | some r => some r
    | none => stepTags ts tags_active line

/-- Handling of one line inside the `[tasks]` section (sby.py lines 155-162):
split into tokens, record the task name, and accumulate the tag sets. -/
def tasksLine (taskname : Option String) (s : SbyState) (line : String) : SbyState :=
  match pySplit line with
  | [] => s
  | t0 :: rest =>
    (t0 :: rest).foldl
      (fun st u =>
        let st1 :=
          if taskname = some t0 then
            { st with task_tags_active := setAdd st.task_tags_active u }
          else st
        { st1 with task_tags_all := setAdd st1.task_tags_all u })
      { s with tasklist := s.tasklist ++ [t0] }

/-- The trailing `if tasks_section: ... elif ... else` chain of the loop body
(sby.py lines 155-181), applied to a line that survived tag filtering. -/
def dispatch (taskname : Option String) (s : SbyState) (line : String) : SbyState :=
  if s.tasks_section = true then
    tasksLine taskname s line
  else if line = "[tasks]" then
    { s with tasks_section := true }
  else if line = "--pycode-begin--" then
    { s with pycode := some "" }
  else if line = "--pycode-end--" then
    match s.pycode with
    | some p => { s with pycode := none, executedPycode := s.executedPycode ++ [p] }
    | none => s
  else
    match s.pycode with
    | none => { s with cfgdata := s.cfgdata ++ [line] }
    | some p => { s with pycode := some (p ++ line ++ "\n") }

/-- The section-boundary check `if tasks_section and line.startswith("[")`
(sby.py lines 123-124). -/
def sectionExit (s : SbyState) (line : String) : SbyState :=
  if s.tasks_section = true ∧ pyStartswith line "[" = true then
    { s with tasks_section := false }
  else s

/-- The loop body after line normalisation and the section-boundary check
(sby.py lines 126-181): close a pending block on `--`, run the tag loop,
drop skipped lines, and dispatch the survivors. -/
def processStripped (taskname : Option String) (s : SbyState) (line : String) : SbyState :=
  if s.task_skiping_blocks = true ∧ line = "--" then
    { s with task_skip_block := false, task_skiping_blocks := false }
  else
    match stepTags s.task_tags_all s.task_tags_active line with
    | some (l2, b) =>
      if l2 = "" then
        { s with task_skiping_blocks := true, task_skip_block := !b }
      else if b = false ∨ s.task_skip_block = true then
        s
      else
        dispatch taskname s l2
    | none =>
      if s.task_skip_block = true then s else dispatch taskname s line

/-- One full iteration of the `for line in sbydata:` loop (sby.py lines 119-181). -/
def processLine (taskname : Option String) (s : SbyState) (rawline : String) : SbyState :=
  processStripped taskname (sectionExit s (stripEOL rawline)) (stripEOL rawline)

/-- The final state of `read_sbyconfig(sbydata, taskname)` (sby.py lines 108-183). -/
def runConfig (sbydata : List String) (taskname : Option String) : SbyState :=
  sbydata.foldl (processLine taskname) initState

/-- The return value `(cfgdata, tasklist)` of `read_sbyconfig` (sby.py line 183). -/
def readSbyConfig (sbydata : List String) (taskname : Option String) :
    List String × List String :=
  ((runConfig sbydata taskname).cfgdata, (runConfig sbydata taskname).tasklist)

/-- The working-directory resolution at the top of `run_job` (sby.py lines
200-206): an explicit `-d` directory wins; otherwise, when a description
filename is known and no temporary directory was requested, the directory is
the filename with its last four characters (`.sby`) cut off, with
`_<taskname>` appended when a task name is present; otherwise `none`
(the temporary-directory branch, sby.py lines 223-225). -/
def resolveWorkdir (workdir sbyfile : Option String) (opt_tmpdir : Bool)
    (taskname : Option String) : Option String :=
  match workdir, sbyfile, opt_tmpdir with
  | none, some f, false =>
    let d := pyTake f (pyLen f - 4)
    some (match taskname with | none => d | some t => d ++ "_" ++ t)
  | w, _, _ => w

/-- Python `"%03d" % n`: decimal digits zero-padded to width at least 3. -/
def pad3 (n : Nat) : String :=
  let s := Nat.repr n
  ⟨List.replicate (3 - s.data.length) '0' ++ s.data⟩

/-- The backup name `"%s.bak%03d" % (my_workdir, backup_idx)` (sby.py line 211). -/
def bakName (dir : String) (n : Nat) : String := dir ++ ".bak" ++ pad3 n

/-- The `while os.path.exists(...): backup_idx += 1` scan (sby.py lines
210-212), with `ex` standing for `os.path.exists`.  The Python loop is
unbounded; `fuel` bounds the model, and theorems assume a free name exists
within the fuel. -/
def backupScan (ex : String → Bool) (dir : String) : Nat → Nat → Nat
  | 0, i => i
  | fuel + 1, i => if ex (bakName dir i) = true then backupScan ex dir fuel (i + 1) else i

/-- The directory moves performed by the backup step (sby.py lines 209-214):
when `-b` is set, `shutil.move(my_workdir, bakName ...)` is performed
unconditionally — the source never checks that `my_workdir` itself exists. -/
def backupMoves (opt_backup : Bool) (ex : String → Bool) (dir : String) (fuel : Nat) :
    List (String × String) :=
  if opt_backup = true then [(dir, bakName dir (backupScan ex dir fuel 0))] else []

/-- Python truthiness of the optional `sbyfile` string (`if sbyfile:`, sby.py
line 218): `None` and the empty string are falsy. -/
def sbyfileTruthy : Option String → Bool
  | none => false
  | some f => decide (f ≠ "")

/-- The removals performed by the force-clean step (sby.py lines 216-219):
`shutil.rmtree(my_workdir, ignore_errors=True)` — the `Bool` in each pair
records the `ignore_errors=True` (best-effort) flag — but only under the
`if sbyfile:` guard. -/
def forceCleanRemovals (opt_force : Bool) (sbyfile : Option String) (dir : String) :
    List (String × Bool) :=
  if opt_force = true then
    if sbyfileTruthy sbyfile = true then [(dir, true)] else []
  else []

/-- The `retcode += run_job(t)` accumulation over all tasks (sby.py lines
243-246). -/
def aggregateRetcode (rcs : List Int) : Int := rcs.foldl (fun a b => a + b) 0

/-- The top-level `assert (workdir is None) or (len(tasknames) == 1)`
(sby.py line 196). -/
def workdirTaskAssert (workdir : Option String) (tasknames : List (Option String)) : Bool :=
  decide (workdir = none) || decide (tasknames.length = 1)

/-- The tail of the driver (sby.py lines 196-248): the assertion followed by
the sequential `run_job` loop and `sys.exit(retcode)`.  A failed assertion
aborts the process before any task's pipeline starts. -/
def mainRun (workdir : Option String) (tasknames : List (Option String))
    (runTask : Option String → Int) : Except String Int :=
  if workdirTaskAssert workdir tasknames = true then
    Except.ok (aggregateRetcode (tasknames.map runTask))
  else
    Except.error "assertion failed"

/-! ### Basic facts about the string helpers -/

theorem data_append (a b : String) : (a ++ b).data = a.data ++ b.data := by
  cases a; cases b; rfl

theorem take_len_append {α : Type} (l₁ l₂ : List α) : (l₁ ++ l₂).take l₁.length = l₁ := by
  induction l₁ with
  | nil => rfl
  | cons a l ih => simp [ih]

theorem drop_len_append {α : Type} (l₁ l₂ : List α) : (l₁ ++ l₂).drop l₁.length = l₂ := by
  induction l₁ with
  | nil => rfl
  | cons a l ih => simp [ih]

theorem pos_line_data (t r : String) :
    (t ++ ":" ++ r).data = (t.data ++ [':']) ++ r.data := by
  rw [data_append, data_append]

theorem neg_line_data (t r : String) :
    ("~" ++ t ++ ":" ++ r).data = (('~' :: t.data) ++ [':']) ++ r.data := by
  rw [data_append, data_append, data_append]
  rfl

/-- A line of the single-line form `t: r` passes the `line.startswith(t+":")`
test of sby.py line 134. -/
theorem hit_pos (t r : String) : ((t ++ ":").data <+: (t ++ ":" ++ r).data) := by
  rw [data_append (t ++ ":") r]
  exact ⟨r.data, rfl⟩

theorem drop_pos (t r : String) : pyDrop (t ++ ":" ++ r) (pyLen t + 1) = r := by
  unfold pyDrop pyLen
  rw [pos_line_data]
  have h : t.data.length + 1 = (t.data ++ [':']).length := by simp
  rw [h, drop_len_append]

theorem hit_neg (t r : String) :
    (("~" ++ t ++ ":").data <+: ("~" ++ t ++ ":" ++ r).data) := by
  rw [data_append ("~" ++ t ++ ":") r]
  exact ⟨r.data, rfl⟩

theorem drop_neg (t r : String) : pyDrop ("~" ++ t ++ ":" ++ r) (pyLen t + 2) = r := by
  unfold pyDrop pyLen
  rw [neg_line_data]
  have h : t.data.length + 2 = (('~' :: t.data) ++ [':']).length := by simp
  rw [h, drop_len_append]

/-- When the tag `t` itself does not start with `~`, the positive test
`line.startswith(t+":")` fails on the negated form `~t: r`, so the `elif` of
sby.py line 137 is the branch taken. -/
theorem not_hit_pos_of_neg_line {t : String} (r : String) (h : pyStartswith t "~" = false) :
    ¬ ((t ++ ":").data <+: ("~" ++ t ++ ":" ++ r).data) := by
  intro hp
  rw [neg_line_data, data_append] at hp
  have hne : ¬ (("~" : String).data <+: t.data) := by
    intro hx
    rw [pyStartswith] at h
    exact absurd hx (of_decide_eq_false h)
  obtain ⟨u, hu⟩ := hp
  cases hd : t.data with
  | nil =>
    rw [hd] at hu
    simp at hu
  | cons c cs =>
    rw [hd] at hu
    have hc : c = '~' := by
      have hh := congrArg (fun l => l.head?) hu
      simpa using hh
    subst hc
    exact hne ⟨cs, by rw [hd]; rfl⟩

/-! ### Facts about one iteration of the tag loop -/

theorem tagApply_pos (A : List String) (t r : String) :
    tagApply A t (t ++ ":" ++ r) = some (pyLstrip r, decide (t ∈ A)) := by
  unfold tagApply
  rw [if_pos (hit_pos t r), drop_pos]

theorem tagApply_neg (A : List String) (t r : String) (h : pyStartswith t "~" = false) :
    tagApply A t ("~" ++ t ++ ":" ++ r) = some (pyLstrip r, decide (t ∉ A)) := by
  unfold tagApply
  rw [if_neg (not_hit_pos_of_neg_line r h), if_pos (hit_neg t r), drop_neg]

theorem tagApply_none_of_miss {A : List String} {t line : String} (h : tagHit t line = false) :
    tagApply A t line = none := by
  unfold tagHit at h
  rw [Bool.or_eq_false_iff] at h
  unfold tagApply
  rw [if_neg (of_decide_eq_false h.1), if_neg (of_decide_eq_false h.2)]

theorem tagApply_isSome_of_hit {A : List String} {t line : String} (h : tagHit t line = true) :
    ∃ x, tagApply A t line = some x := by
  unfold tagHit at h
  unfold tagApply
  by_cases h1 : (t ++ ":").data <+: line.data
  · exact ⟨_, by rw [if_pos h1]⟩
  · have h2 : ("~" ++ t ++ ":").data <+: line.data := by
      rw [decide_eq_false h1, Bool.false_or] at h
      exact of_decide_eq_true h
    exact ⟨_, by rw [if_neg h1, if_pos h2]⟩

/-! ### Facts about the whole tag loop -/

/-- If no known tag matches the line, the tag loop leaves it alone
(the line is not a directive at all). -/
theorem stepTags_none {tags_all A : List String} {line : String}
    (h : ∀ u ∈ tags_all, tagHit u line = false) :
    stepTags tags_all A line = none := by
  induction tags_all with
  | nil => rfl
  | cons u us ih =>
    simp only [stepTags, tagApply_none_of_miss (h u (List.mem_cons_self u us))]
    exact ih (fun v hv => h v (List.mem_cons_of_mem u hv))

/-- If `t` is the only known tag matching the line, the loop's first-match
scan resolves the line exactly as the iteration for `t` does, irrespective of
the iteration order of the remaining tags. -/
theorem stepTags_first {tags_all A : List String} {t line : String}
    (hmem : t ∈ tags_all)
    (huniq : ∀ u ∈ tags_all, tagHit u line = true → u = t)
    (hhit : tagHit t line = true) :
    stepTags tags_all A line = tagApply A t line := by
  induction tags_all with
  | nil => cases hmem
  | cons u us ih =>
    by_cases hu : tagHit u line = true
    · have heq : u = t := huniq u (List.mem_cons_self u us) hu
      subst heq
      obtain ⟨x, hx⟩ := tagApply_isSome_of_hit (A := A) hu
      simp [stepTags, hx]
    · have hu' : tagHit u line = false := by
        cases hb : tagHit u line
        · rfl
        · exact absurd hb hu
      have hne : t ≠ u := by
        intro he
        rw [he] at hhit
        exact hu hhit
      have hmem' : t ∈ us := by
        rcases List.mem_cons.mp hmem with h1 | h2
        · exact absurd h1 hne
        · exact h2
      simp only [stepTags, tagApply_none_of_miss hu']
      exact ih hmem' (fun v hv hvh => huniq v (List.mem_cons_of_mem u hv) hvh)

/-! ### Facts about the scan step -/

theorem sectionExit_cfgdata (s : SbyState) (line : String) :
    (sectionExit s line).cfgdata = s.cfgdata := by
  unfold sectionExit
  split <;> rfl

theorem sectionExit_skip (s : SbyState) (line : String) :
    (sectionExit s line).task_skip_block = s.task_skip_block := by
  unfold sectionExit
  split <;> rfl

theorem sectionExit_skiping (s : SbyState) (line : String) :
    (sectionExit s line).task_skiping_blocks = s.task_skiping_blocks := by
  unfold sectionExit
  split <;> rfl

theorem sectionExit_all (s : SbyState) (line : String) :
    (sectionExit s line).task_tags_all = s.task_tags_all := by
  unfold sectionExit
  split <;> rfl

theorem sectionExit_active (s : SbyState) (line : String) :
    (sectionExit s line).task_tags_active = s.task_tags_active := by
  unfold sectionExit
  split <;> rfl

theorem sectionExit_pycode (s : SbyState) (line : String) :
    (sectionExit s line).pycode = s.pycode := by
  unfold sectionExit
  split <;> rfl

theorem sectionExit_of_not_section {s : SbyState} (line : String)
    (hts : s.tasks_section = false) : sectionExit s line = s := by
  unfold sectionExit
  rw [if_neg]
  intro hc
  rw [hts] at hc
  exact Bool.noConfusion hc.1

/-- Outside the `[tasks]` section and outside any block, a line is processed
by `processStripped` on the unchanged state. -/
theorem processLine_plain (tn : Option String) (s : SbyState) (line : String)
    (hnl : stripEOL line = line) (hts : s.tasks_section = false) :
    processLine tn s line = processStripped tn s line := by
  unfold processLine
  rw [hnl, sectionExit_of_not_section line hts]

/-- With no block pending, `processStripped` is the tag loop followed by the
skip test and the dispatch chain. -/
theorem processStripped_noskip (tn : Option String) (s : SbyState) (line : String)
    (hskip : s.task_skiping_blocks = false) :
    processStripped tn s line =
      match stepTags s.task_tags_all s.task_tags_active line with
      | some (l2, b) =>
        if l2 = "" then
          { s with task_skiping_blocks := true, task_skip_block := !b }
        else if b = false ∨ s.task_skip_block = true then
          s
        else
          dispatch tn s l2
      | none =>
        if s.task_skip_block = true then s else dispatch tn s line := by
  unfold processStripped
  rw [if_neg]
  intro hc
  rw [hskip] at hc
  exact Bool.noConfusion hc.1

/-- Outside the `[tasks]` section, a non-special line reaching the dispatch
chain with no pycode region open is appended to the output. -/
theorem dispatch_plain (tn : Option String) (s : SbyState) (line : String)
    (hts : s.tasks_section = false) (hpy : s.pycode = none)
    (h1 : line ≠ "[tasks]") (h2 : line ≠ "--pycode-begin--") (h3 : line ≠ "--pycode-end--") :
    dispatch tn s line = { s with cfgdata := s.cfgdata ++ [line] } := by
  unfold dispatch
  rw [if_neg, if_neg h1, if_neg h2, if_neg h3, hpy]
  intro hc
  rw [hts] at hc
  exact Bool.noConfusion hc

/-- Outside the `[tasks]` section, a non-special line reaching the dispatch
chain with a pycode region open is appended (plus a newline) to the region
buffer. -/
theorem dispatch_buf (tn : Option String) (s : SbyState) (line p : String)
    (hts : s.tasks_section = false) (hpy : s.pycode = some p)
    (h1 : line ≠ "[tasks]") (h2 : line ≠ "--pycode-begin--") (h3 : line ≠ "--pycode-end--") :
    dispatch tn s line = { s with pycode := some (p ++ line ++ "\n") } := by
  unfold dispatch
  rw [if_neg, if_neg h1, if_neg h2, if_neg h3, hpy]
  intro hc
  rw [hts] at hc
  exact Bool.noConfusion hc

/-! ### Claim theorems -/

/-- C1: for a tag `t` of the known tag vocabulary (the unique tag matching
the line, as the spec requires for well-formed input), in a plain scan state
(no pending block, outside `[tasks]`, no open pycode region): if `t` is in
the active tag set, a line `t: X` (with non-empty, non-special payload `X`)
resolves to `X` with the `t:` prefix and leading whitespace stripped, and a
line `~t: X` is dropped; if `t` is not in the active tag set, `t: X` is
dropped and `~t: X` resolves to `X`. -/
theorem c1_tag_polarity (tn : Option String) (s : SbyState) (t r : String)
    (hskip : s.task_skiping_blocks = false) (hblk : s.task_skip_block = false)
    (hts : s.tasks_section = false) (hpy : s.pycode = none)
    (hmem : t ∈ s.task_tags_all)
    (hnt : pyStartswith t "~" = false)
    (hup : ∀ u ∈ s.task_tags_all, tagHit u (t ++ ":" ++ r) = true → u = t)
    (hun : ∀ u ∈ s.task_tags_all, tagHit u ("~" ++ t ++ ":" ++ r) = true → u = t)
    (hr : pyLstrip r ≠ "")
    (hs1 : pyLstrip r ≠ "[tasks]") (hs2 : pyLstrip r ≠ "--pycode-begin--")
    (hs3 : pyLstrip r ≠ "--pycode-end--")
    (hre1 : stripEOL (t ++ ":" ++ r) = t ++ ":" ++ r)
    (hre2 : stripEOL ("~" ++ t ++ ":" ++ r) = "~" ++ t ++ ":" ++ r) :
    (t ∈ s.task_tags_active →
      (processLine tn s (t ++ ":" ++ r)).cfgdata = s.cfgdata ++ [pyLstrip r] ∧
      (processLine tn s ("~" ++ t ++ ":" ++ r)).cfgdata = s.cfgdata) ∧
    (t ∉ s.task_tags_active →
      (processLine tn s (t ++ ":" ++ r)).cfgdata = s.cfgdata ∧
      (processLine tn s ("~" ++ t ++ ":" ++ r)).cfgdata = s.cfgdata ++ [pyLstrip r]) := by
  have hhp : tagHit t (t ++ ":" ++ r) = true := by
    unfold tagHit
    rw [decide_eq_true (hit_pos t r), Bool.true_or]
  have hhn : tagHit t ("~" ++ t ++ ":" ++ r) = true := by
    unfold tagHit
    rw [decide_eq_true (hit_neg t r), Bool.or_true]
  have hstp : stepTags s.task_tags_all s.task_tags_active (t ++ ":" ++ r)
      = some (pyLstrip r, decide (t ∈ s.task_tags_active)) := by
    rw [stepTags_first hmem hup hhp, tagApply_pos]
  have hstn : stepTags s.task_tags_all s.task_tags_active ("~" ++ t ++ ":" ++ r)
      = some (pyLstrip r, decide (t ∉ s.task_tags_active)) := by
    rw [stepTags_first hmem hun hhn, tagApply_neg _ _ _ hnt]
  have hd : dispatch tn s (pyLstrip r) = { s with cfgdata := s.cfgdata ++ [pyLstrip r] } :=
    dispatch_plain tn s (pyLstrip r) hts hpy hs1 hs2 hs3
  constructor
  · intro hact
    have hb : decide (t ∈ s.task_tags_active) = true := decide_eq_true hact
    have hb2 : decide (t ∉ s.task_tags_active) = false :=
      decide_eq_false (not_not_intro hact)
    constructor
    · rw [processLine_plain tn s _ hre1 hts, processStripped_noskip tn s _ hskip, hstp, hb]
      simp [hr, hblk, hd]
    · rw [processLine_plain tn s _ hre2 hts, processStripped_noskip tn s _ hskip, hstn, hb2]
      simp [hr]
  · intro hact
    have hb : decide (t ∈ s.task_tags_active) = false := decide_eq_false hact
    have hb2 : decide (t ∉ s.task_tags_active) = true := decide_eq_true hact
    constructor
    · rw [processLine_plain tn s _ hre1 hts, processStripped_noskip tn s _ hskip, hstp, hb]
      simp [hr]
    · rw [processLine_plain tn s _ hre2 hts, processStripped_noskip tn s _ hskip, hstn, hb2]
      simp [hr, hblk, hd]

/-- A concrete scan state for the C1 witness: tag `t` known and active. -/
def c1State : SbyState :=
  { initState with task_tags_active := ["t"], task_tags_all := ["t"] }

/-- C1 witness: with tag `t` active, `t:  X` resolves to `X` and `~t:  X`
is dropped. -/
theorem c1_tag_polarity_witness :
    (processLine none c1State ("t" ++ ":" ++ " X")).cfgdata = c1State.cfgdata ++ [pyLstrip " X"] ∧
    (processLine none c1State ("~" ++ "t" ++ ":" ++ " X")).cfgdata = c1State.cfgdata :=
  (c1_tag_polarity none c1State "t" " X" rfl rfl rfl rfl (by decide) (by decide)
    (by decide) (by decide) (by decide) (by decide) (by decide) (by decide)
    (by decide) (by decide)).1 (by decide)

/-- The input for the C2 counterexample: task `a` activates tag `t`; the
block opened by `~t:` is suppressed, but the block opener `t:` appearing
inside it re-evaluates the polarity and ends the suppression before any
`--` line, so `y` survives into the output. -/
def c2Input : List String :=
  ["[tasks]", "a t", "[options]", "~t:", "x", "t:", "y", "--", "z"]

/-- C2 counterexample: the line `y` lies strictly between the suppressing
block opener `~t:` and the next `--`, yet it is NOT discarded — refuting the
claim that suppression persists until the next line that is exactly `--`. -/
theorem c2_suppression_counterexample :
    "y" ∈ (readSbyConfig c2Input (some "a")).1 ∧
    (readSbyConfig c2Input (some "a")).1 = ["[options]", "y", "z"] := by
  constructor
  · decide
  · rfl

/-- C2 amended: while inside a suppressed block, every line is itself
discarded from the output, but the suppression persists only until the next
`--` line OR until a block-form tag directive (empty remainder) whose
polarity matches the active tag set; such a directive ends the suppression
early (the directive line itself is still dropped). -/
theorem c2_suppression_amended (tn : Option String) (s : SbyState) (line : String)
    (hnl : stripEOL line = line)
    (hskip : s.task_skiping_blocks = true) (hblk : s.task_skip_block = true) :
    (processLine tn s line).cfgdata = s.cfgdata ∧
    ((processLine tn s line).task_skip_block = false ↔
      line = "--" ∨ stepTags s.task_tags_all s.task_tags_active line = some ("", true)) := by
  have e1 := sectionExit_cfgdata s line
  have e2 := sectionExit_skip s line
  have e3 := sectionExit_skiping s line
  have e4 := sectionExit_all s line
  have e5 := sectionExit_active s line
  unfold processLine
  rw [hnl]
  unfold processStripped
  by_cases hl : line = "--"
  · rw [if_pos ⟨by rw [e3]; exact hskip, hl⟩]
    constructor
    · exact e1
    · simp [hl]
  · rw [if_neg (fun hc => hl hc.2), e4, e5]
    cases hst : stepTags s.task_tags_all s.task_tags_active line with
    | none =>
      rw [if_pos (by rw [e2]; exact hblk)]
      refine ⟨e1, ?_⟩
      rw [e2, hblk]
      simp [hl]
    | some pair =>
      obtain ⟨l2, b⟩ := pair
      by_cases h2 : l2 = ""
      · subst h2
        cases b <;> simp [hl, e1]
      · cases b <;> simp [hl, h2, e1, e2, hblk]

/-- A concrete suppressed-block state for the C2 witness, with tag `t`
known and active. -/
def c2State : SbyState :=
  { initState with
      task_tags_active := ["t"]
      task_tags_all := ["t"]
      task_skip_block := true
      task_skiping_blocks := true }

/-- C2 amended witness: inside a suppressed block, the matching block opener
`t:` is itself dropped but ends the suppression. -/
theorem c2_suppression_amended_witness :
    (processLine none c2State "t:").cfgdata = c2State.cfgdata ∧
    ((processLine none c2State "t:").task_skip_block = false ↔
      "t:" = "--" ∨ stepTags c2State.task_tags_all c2State.task_tags_active "t:"
        = some ("", true)) :=
  c2_suppression_amended none c2State "t:" rfl rfl rfl

/-- The input for the C3 counterexample: tag `t` is known (declared in
`[tasks]`) but inactive (no task requested), and a `t:`-prefixed line sits
inside a pycode region. -/
def c3Input : List String :=
  ["[tasks]", "a t", "[options]", "--pycode-begin--", "t: output(0)", "--pycode-end--"]

/-- C3 counterexample: the line `t: output(0)` lies strictly between the
code-generation markers, yet the region text handed to `exec` is empty — the
line was tag-filtered away instead of being appended verbatim to the
procedure buffer. -/
theorem c3_pycode_counterexample :
    (runConfig c3Input none).executedPycode = [""] ∧
    (runConfig c3Input none).executedPycode ≠ ["t: output(0)" ++ "\n"] := by
  constructor
  · rfl
  · decide

/-- C3 amended: lines between the code-generation markers pass through
tag-directive resolution and block filtering exactly like any other line.
Outside any block: a line matching no known tag (and not itself a marker or
`[tasks]` header) is appended verbatim plus a newline to the procedure
buffer; a line matched by a known tag with MATCHING polarity is appended
with the tag prefix and leading whitespace stripped (when the non-empty
stripped remainder is itself non-special); a line matched with non-matching
polarity is dropped and never reaches the buffer.  Inside a suppressed
block, no line reaches the buffer at all (the buffer and the output are
unchanged). -/
theorem c3_pycode_amended (tn : Option String) (s : SbyState) (line p : String)
    (hnl : stripEOL line = line) (hts : s.tasks_section = false)
    (hpy : s.pycode = some p)
    (h1 : line ≠ "[tasks]") (h2 : line ≠ "--pycode-begin--") (h3 : line ≠ "--pycode-end--") :
    (s.task_skiping_blocks = false → s.task_skip_block = false →
      (stepTags s.task_tags_all s.task_tags_active line = none →
        (processLine tn s line).pycode = some (p ++ line ++ "\n") ∧
        (processLine tn s line).cfgdata = s.cfgdata) ∧
      (∀ l2, stepTags s.task_tags_all s.task_tags_active line = some (l2, true) → l2 ≠ "" →
        l2 ≠ "[tasks]" → l2 ≠ "--pycode-begin--" → l2 ≠ "--pycode-end--" →
        (processLine tn s line).pycode = some (p ++ l2 ++ "\n") ∧
        (processLine tn s line).cfgdata = s.cfgdata) ∧
      (∀ l2, stepTags s.task_tags_all s.task_tags_active line = some (l2, false) → l2 ≠ "" →
        processLine tn s line = s)) ∧
    (s.task_skiping_blocks = true → s.task_skip_block = true →
      (processLine tn s line).pycode = s.pycode ∧
      (processLine tn s line).cfgdata = s.cfgdata) := by
  constructor
  · intro hskip hblk
    rw [processLine_plain tn s line hnl hts, processStripped_noskip tn s line hskip]
    refine ⟨?_, ?_, ?_⟩
    · intro hst
      rw [hst, if_neg, dispatch_buf tn s line p hts hpy h1 h2 h3]
      · exact ⟨rfl, rfl⟩
      · rw [hblk]
        simp
    · intro l2 hst hl2 g1 g2 g3
      have hd := dispatch_buf tn s l2 p hts hpy g1 g2 g3
      rw [hst]
      simp [hl2, hblk, hd]
    · intro l2 hst hl2
      rw [hst]
      simp [hl2]
  · intro hskip hblk
    have e1 := sectionExit_cfgdata s line
    have e2 := sectionExit_skip s line
    have e3 := sectionExit_skiping s line
    have e4 := sectionExit_all s line
    have e5 := sectionExit_active s line
    have e6 := sectionExit_pycode s line
    unfold processLine
    rw [hnl]
    unfold processStripped
    by_cases hl : line = "--"
    · rw [if_pos ⟨by rw [e3]; exact hskip, hl⟩]
      exact ⟨e6, e1⟩
    · rw [if_neg (fun hc => hl hc.2), e4, e5]
      cases hst : stepTags s.task_tags_all s.task_tags_active line with
      | none =>
        rw [if_pos (by rw [e2]; exact hblk)]
        exact ⟨e6, e1⟩
      | some pair =>
        obtain ⟨l2, b⟩ := pair
        by_cases h2 : l2 = ""
        · subst h2
          simp [e6, e1]
        · simp [h2, e2, hblk, e6, e1]

/-- A concrete state with an open (empty) pycode buffer and known but
inactive tag `t`, for the C3 witness. -/
def c3State : SbyState :=
  { initState with pycode := some "", task_tags_all := ["t"] }

/-- A concrete state with an open (empty) pycode buffer and tag `t` known
AND active, for the matched-surviving half of the C3 witness. -/
def c3StateActive : SbyState :=
  { initState with
      pycode := some ""
      task_tags_active := ["t"]
      task_tags_all := ["t"] }

/-- C3 amended witness: a non-directive line `x` inside the region is
appended to the buffer verbatim plus a newline, and a matched directive line
`t: y` with matching polarity is appended with the prefix stripped. -/
theorem c3_pycode_amended_witness :
    ((processLine none c3State "x").pycode = some ("" ++ "x" ++ "\n") ∧
      (processLine none c3State "x").cfgdata = c3State.cfgdata) ∧
    ((processLine none c3StateActive "t: y").pycode = some ("" ++ "y" ++ "\n") ∧
      (processLine none c3StateActive "t: y").cfgdata = c3StateActive.cfgdata) :=
  ⟨((c3_pycode_amended none c3State "x" "" rfl rfl rfl (by decide) (by decide)
      (by decide)).1 rfl rfl).1 (by decide),
   ((c3_pycode_amended none c3StateActive "t: y" "" rfl rfl rfl (by decide) (by decide)
      (by decide)).1 rfl rfl).2.1 "y" (by decide) (by decide) (by decide) (by decide)
      (by decide)⟩

/-- C4: on a `[tasks]` section containing `a t1 t2` and `b t2`, preprocessing
with no requested task returns the task list `[a, b]` in file order, and
preprocessing with requested task `a` produces the active tag set
`{a, t1, t2}` (the task's own name included) — modelled as the
insertion-ordered list `["a", "t1", "t2"]`. -/
theorem c4_task_discovery :
    (readSbyConfig ["[tasks]", "a t1 t2", "b t2"] none).2 = ["a", "b"] ∧
    (runConfig ["[tasks]", "a t1 t2", "b t2"] (some "a")).task_tags_active
      = ["a", "t1", "t2"] := by
  constructor <;> rfl

/-- The input for the closed half of C5: the directive-looking line `t: X`
occurs once before the `[tasks]` line declaring `t` (passed through
verbatim) and once after it (resolved to `X`, since `t` is active for the
requested task `a`). -/
def c5Input : List String := ["t: X", "[tasks]", "a t", "[options]", "t: X"]

/-- C5: a line that no tag of the so-far-accumulated vocabulary matches —
in particular any `t: X` / `~t: X` line occurring before the `[tasks]` line
that first declares `t`, when the vocabulary is still empty of matching
tags — is passed through to the output verbatim (never dropped, never
prefix-stripped); the closed conjunct shows the same literal line passing
through before the declaration and being resolved after it. -/
theorem c5_order_dependency (tn : Option String) (s : SbyState) (line : String)
    (hnl : stripEOL line = line) (hts : s.tasks_section = false)
    (hskip : s.task_skiping_blocks = false) (hblk : s.task_skip_block = false)
    (hpy : s.pycode = none)
    (hvocab : ∀ u ∈ s.task_tags_all, tagHit u line = false)
    (h1 : line ≠ "[tasks]") (h2 : line ≠ "--pycode-begin--") (h3 : line ≠ "--pycode-end--") :
    (processLine tn s line).cfgdata = s.cfgdata ++ [line] ∧
    (readSbyConfig c5Input (some "a")).1 = ["t: X", "[options]", "X"] := by
  constructor
  · rw [processLine_plain tn s line hnl hts, processStripped_noskip tn s line hskip,
      stepTags_none hvocab, if_neg (by simp [hblk] : ¬ s.task_skip_block = true),
      dispatch_plain tn s line hts hpy h1 h2 h3]
  · rfl

/-- C5 witness: in the initial state (empty tag vocabulary, as holds before
any `[tasks]` line has been scanned), the line `t: X` is emitted verbatim. -/
theorem c5_order_dependency_witness :
    (processLine none initState "t: X").cfgdata = initState.cfgdata ++ ["t: X"] ∧
    (readSbyConfig c5Input (some "a")).1 = ["t: X", "[options]", "X"] :=
  c5_order_dependency none initState "t: X" rfl rfl rfl rfl rfl (by decide)
    (by decide) (by decide) (by decide)

/-- C6: evaluation of the backup step at the failing configuration.  With
`-b` set and NO existing directory at all (`ex` constantly false — in
particular the workdir `x` itself does not exist), the code still performs
`shutil.move("x", "x.bak000")`, which raises `FileNotFoundError` on the real
filesystem; the claim (and the program's own usage text, sby.py line 43:
`backup workdir if it already exists`) says the move happens only when the
directory exists.  The second conjunct shows the numbering half of the
claim, which the code does satisfy: with `x.bak000` occupied, the backup
goes to `x.bak001`. -/
theorem c6_backup_unconditional_eval :
    backupMoves true (fun _ => false) "x" 1 = [("x", "x.bak000")] ∧
    backupMoves true (fun q => q == "x.bak000") "x" 2 = [("x", "x.bak001")] := by
  constructor <;> rfl

/-- C7: with no explicit directory and no temporary directory requested, a
description filename `<base>.sby` resolves to workdir `<base>` when no task
name is present, and to `<base>_<taskname>` when one is. -/
theorem c7_directory_derivation (base t : String) :
    resolveWorkdir none (some (base ++ ".sby")) false none = some base ∧
    resolveWorkdir none (some (base ++ ".sby")) false (some t) = some (base ++ "_" ++ t) := by
  have hb : pyTake (base ++ ".sby") (pyLen (base ++ ".sby") - 4) = base := by
    unfold pyTake pyLen
    rw [data_append]
    have h4 : (".sby" : String).data.length = 4 := rfl
    have hlen : (base.data ++ (".sby" : String).data).length - 4 = base.data.length := by
      rw [List.length_append, h4]
      omega
    rw [hlen, take_len_append]
  refine ⟨?_, ?_⟩
  · show some (pyTake (base ++ ".sby") (pyLen (base ++ ".sby") - 4)) = some base
    rw [hb]
  · show some (pyTake (base ++ ".sby") (pyLen (base ++ ".sby") - 4) ++ "_" ++ t)
      = some (base ++ "_" ++ t)
    rw [hb]

theorem foldl_add_eq (c : Int) (l : List Int) : l.foldl (fun a b => a + b) c = c + l.sum := by
  induction l generalizing c with
  | nil => simp
  | cons x xs ih =>
    simp only [List.foldl_cons, List.sum_cons, ih]
    ring

theorem sum_zero_iff_all_zero (l : List Int) (h : ∀ x ∈ l, 0 ≤ x) :
    l.sum = 0 ↔ ∀ x ∈ l, x = 0 := by
  induction l with
  | nil => simp
  | cons x xs ih =>
    have hx : 0 ≤ x := h x (List.mem_cons_self x xs)
    have hxs : ∀ y ∈ xs, 0 ≤ y := fun y hy => h y (List.mem_cons_of_mem x hy)
    have hsum : 0 ≤ xs.sum := List.sum_nonneg hxs
    rw [List.sum_cons]
    constructor
    · intro h0
      have hx0 : x = 0 := by omega
      have hxs0 : xs.sum = 0 := by omega
      intro y hy
      rcases List.mem_cons.mp hy with h1 | h2
      · rw [h1, hx0]
      · exact (ih hxs).mp hxs0 y h2
    · intro hall
      have h1 : x = 0 := hall x (List.mem_cons_self x xs)
      have h2 : xs.sum = 0 := (ih hxs).mpr (fun y hy => hall y (List.mem_cons_of_mem x hy))
      omega

/-- C8: the process-level return code is the sum of the per-task return
codes in run order — `0, 1, 0` aggregates to `1` — and, for non-negative
per-task codes, the aggregate is zero exactly when every task returned
zero. -/
theorem c8_retcode_aggregation (rcs : List Int) (h : ∀ x ∈ rcs, 0 ≤ x) :
    aggregateRetcode [0, 1, 0] = 1 ∧
    aggregateRetcode rcs = rcs.sum ∧
    (aggregateRetcode rcs = 0 ↔ ∀ x ∈ rcs, x = 0) := by
  have hsum : aggregateRetcode rcs = rcs.sum := by
    unfold aggregateRetcode
    rw [foldl_add_eq, zero_add]
  refine ⟨by rfl, hsum, ?_⟩
  rw [hsum]
  exact sum_zero_iff_all_zero rcs h

/-- C8 witness at the all-zero task list `[0, 0]`. -/
theorem c8_retcode_aggregation_witness :
    aggregateRetcode [0, 1, 0] = 1 ∧
    aggregateRetcode [0, 0] = List.sum [0, 0] ∧
    (aggregateRetcode [0, 0] = 0 ↔ ∀ x ∈ ([0, 0] : List Int), x = 0) :=
  c8_retcode_aggregation [0, 0] (by decide)

/-- C9 counterexample: with force-clean enabled but the description read
from stdin (`sbyfile = None`, reachable via `sby -f -d d -T task < file`),
the dispatcher reaches the force-clean step yet performs NO removal — the
`if sbyfile:` guard (sby.py line 218) skips the `rmtree` — refuting the
claim that the pre-existing directory is removed for every invocation that
reaches the step. -/
theorem c9_forceclean_counterexample :
    forceCleanRemovals true none "d" = [] ∧
    ("d", true) ∉ forceCleanRemovals true none "d" := by
  constructor
  · rfl
  · decide

/-- C9 amended: when force-clean is enabled AND a description filename was
supplied (not stdin), the target directory is removed best-effort
(`ignore_errors=True`, the `true` flag; absence of the directory is not an
error, and the model performs the removal without consulting any filesystem
state); with force-clean disabled nothing is removed. -/
theorem c9_forceclean_amended (f dir : String) (hf : f ≠ "") :
    forceCleanRemovals true (some f) dir = [(dir, true)] ∧
    forceCleanRemovals false (some f) dir = [] := by
  constructor
  · unfold forceCleanRemovals sbyfileTruthy
    rw [if_pos rfl, if_pos (decide_eq_true hf)]
  · rfl

/-- C9 amended witness at the usual `x.sby` invocation. -/
theorem c9_forceclean_amended_witness :
    forceCleanRemovals true (some "x.sby") "x" = [("x", true)] ∧
    forceCleanRemovals false (some "x.sby") "x" = [] :=
  c9_forceclean_amended "x.sby" "x" (by decide)

/-- C10: whenever an explicit working directory is supplied together with a
task-name list of length other than one, the top-level assertion (sby.py
line 196) fails and the driver aborts before any task's pipeline starts. -/
theorem c10_explicit_workdir_single_task (d : String) (ts : List (Option String))
    (runTask : Option String → Int) (h : ts.length ≠ 1) :
    mainRun (some d) ts runTask = Except.error "assertion failed" := by
  have hc : ¬ ((decide ((some d : Option String) = none) || decide (ts.length = 1)) = true) := by
    intro hc
    simp only [Bool.or_eq_true] at hc
    rcases hc with h1 | h2
    · exact Option.noConfusion (of_decide_eq_true h1)
    · exact h (of_decide_eq_true h2)
  unfold mainRun workdirTaskAssert
  rw [if_neg hc]

/-- C10 witness: an explicit `-d d` with two requested tasks aborts. -/
theorem c10_explicit_workdir_single_task_witness :
    mainRun (some "d") [some "a", some "b"] (fun _ => 0) = Except.error "assertion failed" :=
  c10_explicit_workdir_single_task "d" [some "a", some "b"] (fun _ => 0) (by decide)

end Sby
